import Mathlib

/-!
Verification of `src/submit-simulation.py` from
perlinm/hopfield-neural-network-thermodynamics.

The script is a linear pipeline: parse CLI arguments, invoke an external
build, query the simulation binary for a suffix, render a SLURM job script,
write it, and submit it.  We embed the script as pure Lean functions:

* Python string/list primitives used by the script (`str.split(sep)`,
  `sep.join`, `list.remove`, `bytes.split()[-1]`, the `in` substring test)
  are embedded as executable Lean definitions;
* the whole script is the function `run : List String → World → List Effect
  × Outcome`, where `World` records the responses of the external world
  (captured stdout of the suffix query, whether the job directory exists,
  the host FQDN, and the exit statuses of the build and submit subprocesses,
  which the script receives from `subprocess.call` and discards) and the
  `Effect` trace records every side effect in order.
-/

namespace SubmitSimulation

/-- Global constant `whide_flag = "whide"` (line 4 of the script). -/
def whide_flag : String := "whide"

/-- Global constant `mkfac = "mkfac.py"` (line 5). -/
def mkfac : String := "mkfac.py"

/-- Global constant `job_dir = "jobs"` (line 6). -/
def job_dir : String := "jobs"

/-- Global constant `simulate = "simulate.exe"` (line 7). -/
def simulate : String := "simulate.exe"

/-- Python `str.split(sep)` for a single-character separator `sep`:
splits at every occurrence of `sep`, keeping empty segments, and returns
`[[]]` on the empty string (Python: `"".split(".") == [""]`). -/
def pySplit (sep : Char) : List Char → List (List Char)
  | [] => [[]]
  | c :: cs =>
    match pySplit sep cs with
    | [] => [[]]
    | w :: ws => if c = sep then [] :: w :: ws else (c :: w) :: ws

/-- Python `sep.join(words)` for a single-character separator. -/
def pyJoin (sep : Char) : List (List Char) → List Char
  | [] => []
  | [w] => w
  | w :: ws => w ++ sep :: pyJoin sep ws

/-- Line 28: `basename = "network" + ".".join(suffix.split(".")[:-1])`.
`[:-1]` is `List.dropLast`. -/
def basename (suffix : String) : String :=
  ⟨"network".data ++ pyJoin '.' ((pySplit '.' suffix.data).dropLast)⟩

/-- Line 26: `suffix_cmd = "./simulate.exe --suffix " + " ".join(sim_args)`.
Python `" ".join` on a list of strings is `String.intercalate " "`. -/
def suffix_cmd (sim_args : List String) : String :=
  "./simulate.exe --suffix " ++ String.intercalate " " sim_args

/-- Splitting at every character satisfying `p`, keeping empty segments
(the per-character analogue of `pySplit`). -/
def pySplitP (p : Char → Bool) : List Char → List (List Char)
  | [] => [[]]
  | c :: cs =>
    match pySplitP p cs with
    | [] => [[]]
    | w :: ws => if p c then [] :: w :: ws else (c :: w) :: ws

/-- Line 27: `(output).split()[-1]`, applied to the captured stdout of the
suffix query.  Python `.split()` with no separator splits on runs of
whitespace and discards empty tokens — equivalently, split at every
whitespace character and drop the empty segments; `[-1]` raises
`IndexError` on an empty list, embedded as `none`.  (The
`.decode("utf-8")` is the identity in our string model.) -/
def pyLastToken (out : String) : Option String :=
  (((pySplitP (fun c => c.isWhitespace) out.data).filter
      (fun w => !w.isEmpty)).map (fun w => (⟨w⟩ : String))).getLast?

/-- Lines 32-37: the ordered list of batch options.  The integer values
`1` are rendered by `"{}".format` as the string `"1"`. -/
def options (basename walltime_in_hours : String) : List (String × String) :=
  [ ("output", basename ++ ".out"),
    ("error", basename ++ ".err"),
    ("time", walltime_in_hours ++ ":00:00"),
    ("nodes", "1"),
    ("ntasks", "1"),
    ("ntasks-per-node", "1") ]

/-- Lines 40-44: the job-script text, built by appending one
`#SBATCH --<name> <value>` line per option to the shebang line, then a
blank line, then `"./{} ".format(simulate) + " ".join(sim_args) + "\n"`. -/
def job_text (basename walltime_in_hours : String) (sim_args : List String) :
    String :=
  let t := "#!/usr/bin/env sh\n"
  let t := (options basename walltime_in_hours).foldl
    (fun t o => t ++ "#SBATCH --" ++ o.1 ++ " " ++ o.2 ++ "\n") t
  let t := t ++ "\n"
  t ++ "./" ++ simulate ++ " " ++ String.intercalate " " sim_args ++ "\n"

/-- Python substring test `needle in hay` on `List Char`. -/
def subOcc (needle : List Char) : List Char → Bool
  | [] => needle.isEmpty
  | c :: cs => needle.isPrefixOf (c :: cs) || subOcc needle cs

/-- Python substring test `needle in hay` on strings (line 51). -/
def pyIn (needle hay : String) : Bool := subOcc needle.data hay.data

/-- Lines 51-54: `submit_cmd = "sbatch" if "colorado.edu" in fqdn else "sh"`,
a function of the host FQDN alone. -/
def submit_cmd (fqdn : String) : String :=
  if pyIn "colorado.edu" fqdn then "sbatch" else "sh"

/-- Line 15: `whide = whide_flag in sys.argv` — the scan covers the whole
argument vector, `sys.argv[0]` included. -/
def whide_of (argv : List String) : Bool := argv.contains whide_flag

/-- Line 16: `if whide: sys.argv.remove(whide_flag)` — Python `remove`
deletes the first occurrence, which is `List.erase`. -/
def argv_after_whide (argv : List String) : List String :=
  if argv.contains whide_flag then argv.erase whide_flag else argv

/-- Line 23: the argument list handed to `subprocess.call`,
`["./"+mkfac] + ([whide_flag] if whide else [])`. -/
def build_cmd (whide : Bool) : List String :=
  ("./" ++ mkfac) :: (if whide then [whide_flag] else [])

/-- Line 29: `job_file = "{}/{}.sh".format(job_dir, basename)`. -/
def job_file (basename : String) : String :=
  job_dir ++ "/" ++ basename ++ ".sh"

/-- Outcome of the argument-processing prefix of the script (lines 10-19). -/
inductive ParseResult where
  /-- `len(sys.argv) < 2`: the usage message is printed and `exit(1)` runs. -/
  | usageError : ParseResult
  /-- `sys.argv[1]` raised `IndexError` after the flag was removed
  (uncaught, so the process dies with a traceback). -/
  | indexError : ParseResult
  /-- Parsing succeeded: the flag, `walltime_in_hours = sys.argv[1]` and
  `sim_args = sys.argv[2:]`. -/
  | ok (whide : Bool) (walltime_in_hours : String) (sim_args : List String) :
      ParseResult
deriving DecidableEq, Repr

/-- Lines 10-19 of the script as a function of the raw argument vector. -/
def parse (argv : List String) : ParseResult :=
  if argv.length < 2 then .usageError
  else
    match argv_after_whide argv with
    | _ :: walltime :: rest => .ok (whide_of argv) walltime rest
    | _ => .indexError

/-- One observable side effect of the script, in program order. -/
inductive Effect where
  /-- Line 11: the usage message printed before `exit(1)`.  (The message
  string itself is garbled — the `format` call binds to the second literal
  only — but a message is printed.) -/
  | printUsage : Effect
  /-- Line 22: `print("building project")`. -/
  | printBuilding : Effect
  /-- Line 23: `subprocess.call(["./"+mkfac] + ([whide_flag] if whide else []))`. -/
  | runBuild (cmd : List String) : Effect
  /-- Line 27: `subprocess.check_output(suffix_cmd, shell=True)`. -/
  | runSuffixQuery (cmd : String) : Effect
  /-- Line 47: `os.makedirs(job_dir)`. -/
  | makeJobDir : Effect
  /-- Lines 48-49: the job file written at a path with given contents. -/
  | writeJobFile (path text : String) : Effect
  /-- Line 56: `subprocess.call([submit_cmd, job_file])`. -/
  | submit (cmd : List String) : Effect
deriving DecidableEq, Repr

/-- How the process terminates. -/
inductive Outcome where
  /-- `exit(1)` from the usage branch. -/
  | usageExit : Outcome
  /-- An uncaught Python exception (IndexError or CalledProcessError):
  non-zero process exit with a traceback. -/
  | uncaughtError : Outcome
  /-- The script ran to the end. -/
  | done : Outcome
deriving DecidableEq, Repr

/-- The external world's responses, fixed per run.

* `buildResult`: what `subprocess.call` at line 23 does — `some code` when
  the build command started and exited with that status (the script
  discards the value), `none` when the call itself raised (e.g. the
  command could not be started), an uncaught exception.
* `suffixOutput`: the captured stdout of the suffix query at line 27,
  `none` when `check_output` raises (the subprocess failed to start or
  exited non-zero).
* `jobDirExists`: the `os.path.isdir(job_dir)` test at line 46.
* `fqdn`: `socket.getfqdn()` at line 51.
* `submitResult`: like `buildResult`, for `subprocess.call` at line 56. -/
structure World where
  buildResult : Option Int
  suffixOutput : Option String
  jobDirExists : Bool
  fqdn : String
  submitResult : Option Int
deriving DecidableEq, Repr

/-- The whole script: the ordered side-effect trace and the outcome.
An exhausted `Option` response (`none`) at the build, suffix-query or
submission call means that `subprocess` call raised, so the trace stops
there and the outcome is an uncaught error. -/
def run (argv : List String) (w : World) : List Effect × Outcome :=
  match parse argv with
  | .usageError => ([.printUsage], .usageExit)
  | .indexError => ([], .uncaughtError)
  | .ok whide walltime_in_hours sim_args =>
    match w.buildResult with
    | none => ([.printBuilding, .runBuild (build_cmd whide)], .uncaughtError)
    | some _ =>
      match w.suffixOutput with
      | none =>
        ([.printBuilding, .runBuild (build_cmd whide),
          .runSuffixQuery (suffix_cmd sim_args)], .uncaughtError)
      | some out =>
        match pyLastToken out with
        | none =>
          ([.printBuilding, .runBuild (build_cmd whide),
            .runSuffixQuery (suffix_cmd sim_args)], .uncaughtError)
        | some suffix =>
          let bname := basename suffix
          let trace :=
            [.printBuilding, .runBuild (build_cmd whide),
             .runSuffixQuery (suffix_cmd sim_args)] ++
            (if w.jobDirExists then [] else [.makeJobDir]) ++
            [.writeJobFile (job_file bname)
               (job_text bname walltime_in_hours sim_args),
             .submit [submit_cmd w.fqdn, job_file bname]]
          match w.submitResult with
          | none => (trace, .uncaughtError)
          | some _ => (trace, .done)

/-! ## Helper lemmas about the embedded Python primitives -/

theorem pySplit_cons_of_eq (sep c : Char) (cs v : List Char)
    (vs : List (List Char)) (h : pySplit sep cs = v :: vs) :
    pySplit sep (c :: cs) =
      if c = sep then [] :: v :: vs else (c :: v) :: vs := by
  simp only [pySplit, h]

theorem pySplit_ne_nil (sep : Char) (l : List Char) : pySplit sep l ≠ [] := by
  induction l with
  | nil => simp [pySplit]
  | cons c cs ih =>
    rcases h : pySplit sep cs with _ | ⟨v, vs⟩
    · exact absurd h ih
    · rw [pySplit_cons_of_eq sep c cs v vs h]
      split <;> simp

theorem pyJoin_pySplit (sep : Char) (l : List Char) :
    pyJoin sep (pySplit sep l) = l := by
  induction l with
  | nil => rfl
  | cons c cs ih =>
    rcases h : pySplit sep cs with _ | ⟨v, vs⟩
    · exact absurd h (pySplit_ne_nil sep cs)
    · rw [h] at ih
      rw [pySplit_cons_of_eq sep c cs v vs h]
      by_cases hc : c = sep
      · subst hc
        cases vs <;> simp_all [pyJoin]
      · cases vs <;> simp_all [pyJoin]

theorem pySplit_getLast?_not_mem (sep : Char) (l : List Char) :
    ∀ w, (pySplit sep l).getLast? = some w → sep ∉ w := by
  induction l with
  | nil =>
    intro w hw
    simp only [pySplit, List.getLast?_singleton, Option.some.injEq] at hw
    subst hw
    simp
  | cons c cs ih =>
    intro w hw
    rcases h : pySplit sep cs with _ | ⟨v, vs⟩
    · exact absurd h (pySplit_ne_nil sep cs)
    · rw [pySplit_cons_of_eq sep c cs v vs h] at hw
      by_cases hc : c = sep
      · rw [if_pos hc, List.getLast?_cons_cons] at hw
        exact ih w (h ▸ hw)
      · rw [if_neg hc] at hw
        cases vs with
        | nil =>
          simp only [List.getLast?_singleton, Option.some.injEq] at hw
          subst hw
          intro hmem
          rcases List.mem_cons.mp hmem with h1 | h2
          · exact hc h1.symm
          · exact ih v (by rw [h, List.getLast?_singleton]) h2
        | cons v2 vs2 =>
          rw [List.getLast?_cons_cons] at hw
          exact ih w (by rw [h, List.getLast?_cons_cons]; exact hw)

theorem pySplit_of_not_mem (sep : Char) (l : List Char) (h : sep ∉ l) :
    pySplit sep l = [l] := by
  induction l with
  | nil => rfl
  | cons c cs ih =>
    simp only [List.mem_cons, not_or] at h
    have hc : ¬c = sep := fun hc => h.1 hc.symm
    rw [pySplit_cons_of_eq sep c cs cs [] (ih h.2), if_neg hc]

theorem pyJoin_append_singleton (sep : Char) (ws : List (List Char))
    (x : List Char) (h : ws ≠ []) :
    pyJoin sep (ws ++ [x]) = pyJoin sep ws ++ sep :: x := by
  induction ws with
  | nil => exact absurd rfl h
  | cons w ws ih =>
    cases ws with
    | nil => rfl
    | cons w2 ws2 =>
      have h2 := ih (by simp)
      show w ++ sep :: pyJoin sep ((w2 :: ws2) ++ [x]) =
        (w ++ sep :: pyJoin sep (w2 :: ws2)) ++ sep :: x
      rw [h2]
      simp [List.append_assoc]

/-! ## Claims -/

/-- C1: the basename derived from the suffix equals the literal
`"network"` followed by the suffix split on `.` with the final segment
dropped and the remainder rejoined with `.`.  Concretely: when the suffix
contains at least one `.`, the suffix decomposes as `stem ++ "." ++ ext`
with `ext` dot-free and the basename is `"network" ++ stem`; when the
suffix contains no `.`, the whole string is dropped and the basename is
exactly `"network"`. -/
theorem basename_drops_final_dot_segment (s : String) :
    ('.' ∈ s.data →
      ∃ stem ext, s.data = stem ++ '.' :: ext ∧ '.' ∉ ext ∧
        (basename s).data = "network".data ++ stem) ∧
    ('.' ∉ s.data → basename s = "network") := by
  constructor
  · intro hdot
    have hne : pySplit '.' s.data ≠ [] := pySplit_ne_nil '.' s.data
    have hlen : 2 ≤ (pySplit '.' s.data).length := by
      rcases hws : pySplit '.' s.data with _ | ⟨w, ws⟩
      · exact absurd hws hne
      · cases ws with
        | nil =>
          exfalso
          have hj := pyJoin_pySplit '.' s.data
          rw [hws] at hj
          have hlast := pySplit_getLast?_not_mem '.' s.data w (by rw [hws]; rfl)
          simp only [pyJoin] at hj
          exact hlast (hj ▸ hdot)
        | cons w2 ws2 => simp
    have hdrop : (pySplit '.' s.data).dropLast ≠ [] := by
      have : (pySplit '.' s.data).dropLast.length =
          (pySplit '.' s.data).length - 1 := List.length_dropLast _
      intro hnil
      rw [hnil] at this
      simp only [List.length_nil] at this
      omega
    refine ⟨pyJoin '.' ((pySplit '.' s.data).dropLast),
      (pySplit '.' s.data).getLast hne, ?_, ?_, ?_⟩
    · conv_lhs => rw [← pyJoin_pySplit '.' s.data,
        ← List.dropLast_append_getLast hne]
      exact pyJoin_append_singleton '.' _ _ hdrop
    · exact pySplit_getLast?_not_mem '.' s.data _
        (List.getLast?_eq_getLast _ hne)
    · rfl
  · intro hdot
    show (⟨"network".data ++ pyJoin '.' ((pySplit '.' s.data).dropLast)⟩ :
      String) = "network"
    rw [pySplit_of_not_mem '.' s.data hdot]
    rfl

/-- C1 witness: the suffix `"foo.bar.net"` splits as
`"foo.bar" ++ "." ++ "net"` and yields basename `"networkfoo.bar"`; the
dot-free suffix `"nodot"` yields basename `"network"`. -/
theorem basename_drops_final_dot_segment_witness :
    (∃ stem ext, ("foo.bar.net" : String).data = stem ++ '.' :: ext ∧
      '.' ∉ ext ∧ (basename "foo.bar.net").data = "network".data ++ stem) ∧
    basename "nodot" = "network" :=
  ⟨(basename_drops_final_dot_segment "foo.bar.net").1 (by decide),
   (basename_drops_final_dot_segment "nodot").2 (by decide)⟩

/-- Helper: the fully rendered job-script template. -/
theorem job_text_unfold (b h : String) (args : List String) :
    job_text b h args =
      "#!/usr/bin/env sh\n" ++
      ("#SBATCH --output " ++ b ++ ".out\n") ++
      ("#SBATCH --error " ++ b ++ ".err\n") ++
      ("#SBATCH --time " ++ h ++ ":00:00\n") ++
      "#SBATCH --nodes 1\n" ++
      "#SBATCH --ntasks 1\n" ++
      "#SBATCH --ntasks-per-node 1\n" ++
      "\n" ++
      ("./simulate.exe " ++ String.intercalate " " args ++ "\n") := by
  simp only [job_text, options, List.foldl, simulate, String.append_assoc]
  rfl

/-- C2: for every basename, walltime string and argument list, the rendered
job script is exactly the shebang line, the six `#SBATCH` directives in the
fixed order (output, error, time, nodes, ntasks, ntasks-per-node), a blank
line, and the `./simulate.exe` invocation with the arguments joined by
single spaces; in particular the time option renders as
`--time <h>:00:00` exactly. -/
theorem job_script_template (b h : String) (args : List String) :
    job_text b h args =
      "#!/usr/bin/env sh\n" ++
      ("#SBATCH --output " ++ b ++ ".out\n") ++
      ("#SBATCH --error " ++ b ++ ".err\n") ++
      ("#SBATCH --time " ++ h ++ ":00:00\n") ++
      "#SBATCH --nodes 1\n" ++
      "#SBATCH --ntasks 1\n" ++
      "#SBATCH --ntasks-per-node 1\n" ++
      "\n" ++
      ("./simulate.exe " ++ String.intercalate " " args ++ "\n") ∧
    (options b h)[2]? = some ("time", h ++ ":00:00") :=
  ⟨job_text_unfold b h args, rfl⟩

/-- C4 counterexample: the simulation arguments are flattened into a single
space-joined, shell-interpreted command string, so the distinct argument
lists `["a b"]` and `["a", "b"]` produce byte-identical suffix-query
command strings and byte-identical job scripts — the single argument
`"a b"` cannot reach the simulation program as the identical string. -/
theorem distinct_args_same_command_strings :
    suffix_cmd ["a b"] = suffix_cmd ["a", "b"] ∧
    job_text "networkfoo" "5" ["a b"] = job_text "networkfoo" "5" ["a", "b"] ∧
    (["a b"] : List String) ≠ ["a", "b"] :=
  ⟨rfl, rfl, by decide⟩

/-- C4 amended: the arguments are inserted verbatim and unescaped (joined
by single spaces) into both the suffix-query command string and the job
script's invocation line; hence both strings depend on the argument list
only through its space-join, and argument lists with the same space-join
are indistinguishable (an argument containing a space is re-split by the
shell rather than delivered as the identical string). -/
theorem args_inserted_verbatim_unescaped (b h : String) (args : List String) :
    suffix_cmd args =
      "./simulate.exe --suffix " ++ String.intercalate " " args ∧
    job_text b h args =
      ("#!/usr/bin/env sh\n" ++
       ("#SBATCH --output " ++ b ++ ".out\n") ++
       ("#SBATCH --error " ++ b ++ ".err\n") ++
       ("#SBATCH --time " ++ h ++ ":00:00\n") ++
       "#SBATCH --nodes 1\n" ++
       "#SBATCH --ntasks 1\n" ++
       "#SBATCH --ntasks-per-node 1\n" ++
       "\n") ++
      ("./simulate.exe " ++ String.intercalate " " args ++ "\n") ∧
    ∀ args2, String.intercalate " " args2 = String.intercalate " " args →
      suffix_cmd args2 = suffix_cmd args ∧
      job_text b h args2 = job_text b h args := by
  refine ⟨rfl, job_text_unfold b h args, fun args2 hj => ⟨?_, ?_⟩⟩
  · simp only [suffix_cmd, hj]
  · simp only [job_text, hj]

/-- C4 amended witness: at `args = ["a", "b"]` the suffix-query command
string is the verbatim join, and the colliding list `["a b"]` yields the
same command string and job script. -/
theorem args_inserted_verbatim_unescaped_witness :
    suffix_cmd ["a", "b"] =
      "./simulate.exe --suffix " ++ String.intercalate " " ["a", "b"] ∧
    suffix_cmd ["a b"] = suffix_cmd ["a", "b"] ∧
    job_text "n" "5" ["a b"] = job_text "n" "5" ["a", "b"] :=
  have h := args_inserted_verbatim_unescaped "n" "5" ["a", "b"]
  ⟨h.1, h.2.2 ["a b"] (by decide)⟩

/-- C6: when the marker token is present anywhere in the argument vector
the flag is set and exactly one occurrence is removed, leaving the
remaining arguments in their original relative order (the result is a
sublist, one element shorter, with the token count down by one and every
other count unchanged); when absent, the flag is false and the vector is
untouched. -/
theorem marker_flag_removal (argv : List String) :
    (whide_flag ∈ argv →
      whide_of argv = true ∧
      (argv_after_whide argv).Sublist argv ∧
      (argv_after_whide argv).length + 1 = argv.length ∧
      (argv_after_whide argv).count whide_flag + 1 =
        argv.count whide_flag ∧
      ∀ a, a ≠ whide_flag →
        (argv_after_whide argv).count a = argv.count a) ∧
    (whide_flag ∉ argv →
      whide_of argv = false ∧ argv_after_whide argv = argv) := by
  constructor
  · intro hmem
    have hc : argv.contains whide_flag = true := by simpa using hmem
    have he : argv_after_whide argv = argv.erase whide_flag := by
      simp [argv_after_whide, hmem]
    refine ⟨hc, ?_, ?_, ?_, ?_⟩
    · rw [he]; exact List.erase_sublist _ _
    · rw [he, List.length_erase_of_mem hmem]
      have : 0 < argv.length := List.length_pos.mpr (List.ne_nil_of_mem hmem)
      omega
    · rw [he, List.count_erase_self]
      have : 0 < argv.count whide_flag := List.count_pos_iff.mpr hmem
      omega
    · intro a ha
      rw [he, List.count_erase_of_ne ha]
  · intro hmem
    have hc : argv.contains whide_flag = false := by simpa using hmem
    exact ⟨hc, by simp [argv_after_whide, hmem]⟩

/-- C6 witness: with the token present in `["x", "whide", "y"]` the flag is
set and the token removed order-preservingly; with it absent in
`["x", "y"]` nothing changes. -/
theorem marker_flag_removal_witness :
    whide_of ["x", "whide", "y"] = true ∧
    (argv_after_whide ["x", "whide", "y"]).Sublist ["x", "whide", "y"] ∧
    whide_of ["x", "y"] = false ∧
    argv_after_whide ["x", "y"] = ["x", "y"] :=
  have h1 := (marker_flag_removal ["x", "whide", "y"]).1 (by decide)
  have h2 := (marker_flag_removal ["x", "y"]).2 (by decide)
  ⟨h1.1, h1.2.1, h2.1, h2.2⟩

/-- C10: the marker scan covers `sys.argv[0]`: when the program name
itself is the marker token, the flag is set, that first occurrence is
removed, and the walltime is then read from what was originally the second
element after the program name (`sys.argv[2]`), with the simulation
arguments starting at the original third. -/
theorem marker_in_argv0_shifts_walltime (tl : List String) (a1 a2 : String)
    (rest : List String) :
    whide_of (whide_flag :: tl) = true ∧
    argv_after_whide (whide_flag :: tl) = tl ∧
    parse (whide_flag :: a1 :: a2 :: rest) =
      ParseResult.ok true a2 rest := by
  have hw : ∀ l : List String, whide_of (whide_flag :: l) = true := by
    intro l; simp [whide_of]
  have ha : ∀ l : List String, argv_after_whide (whide_flag :: l) = l := by
    intro l; simp [argv_after_whide]
  refine ⟨hw tl, ha tl, ?_⟩
  simp only [parse]
  rw [if_neg (by simp)]
  simp [ha, hw]

/-- C3 counterexample: when the only argument supplied is the marker flag,
the raw vector has two elements, so the usage check passes; the flag is
removed and reading `sys.argv[1]` then fails with an uncaught IndexError —
not the usage message with exit code 1. -/
theorem marker_only_argv_is_not_usage_error :
    parse ["./submit-simulation.py", "whide"] = ParseResult.indexError ∧
    run ["./submit-simulation.py", "whide"]
        ⟨some 0, none, true, "host", some 0⟩ =
      ([], Outcome.uncaughtError) := by
  decide

/-- C3 amended: the usage message and `exit(1)` fire exactly when the raw
argument vector (program name included, marker flag not yet removed) has
fewer than two elements, and then no other effect precedes them; with two
or more raw elements the usage error never fires, and in particular when
the only argument is the marker flag the run dies with an uncaught
IndexError, still with no filesystem or subprocess side effects. -/
theorem usage_error_iff_raw_argv_short (argv : List String) (w : World) :
    (argv.length < 2 →
      run argv w = ([Effect.printUsage], Outcome.usageExit)) ∧
    (2 ≤ argv.length → parse argv ≠ ParseResult.usageError) ∧
    (parse argv = ParseResult.indexError →
      run argv w = ([], Outcome.uncaughtError)) := by
  refine ⟨?_, ?_, ?_⟩
  · intro hlen
    have hp : parse argv = ParseResult.usageError := by simp [parse, hlen]
    simp [run, hp]
  · intro hlen
    simp only [parse]
    rw [if_neg (by omega)]
    split <;> simp
  · intro hp
    simp [run, hp]

/-- C3 amended witness: a one-element vector yields the usage exit with no
prior effect; `["a", "b"]` passes the check; the marker-flag-only vector
dies with the IndexError and an empty effect trace. -/
theorem usage_error_iff_raw_argv_short_witness :
    run ["./sub"] ⟨some 0, none, true, "h", some 0⟩ =
      ([Effect.printUsage], Outcome.usageExit) ∧
    parse ["a", "b"] ≠ ParseResult.usageError ∧
    run ["./sub", "whide"] ⟨some 0, none, true, "h", some 0⟩ =
      ([], Outcome.uncaughtError) :=
  ⟨(usage_error_iff_raw_argv_short ["./sub"]
      ⟨some 0, none, true, "h", some 0⟩).1 (by decide),
   (usage_error_iff_raw_argv_short ["a", "b"]
      ⟨some 0, none, true, "h", some 0⟩).2.1 (by decide),
   (usage_error_iff_raw_argv_short ["./sub", "whide"]
      ⟨some 0, none, true, "h", some 0⟩).2.2 (by decide)⟩

/-- C5: the suffix is the last whitespace-delimited token of the suffix
query's captured stdout; if that call raises (non-zero exit) or the output
has no token, the run stops right after the query with an uncaught error
and no job file is ever written; on success the basename is derived from
that last token. -/
theorem suffix_is_last_token_and_failure_fatal
    (argv : List String) (w : World) (whide : Bool) (wt : String)
    (args : List String) (be : Int)
    (hp : parse argv = ParseResult.ok whide wt args)
    (hb : w.buildResult = some be) :
    (w.suffixOutput = none →
      run argv w =
        ([Effect.printBuilding, Effect.runBuild (build_cmd whide),
          Effect.runSuffixQuery (suffix_cmd args)], Outcome.uncaughtError) ∧
      ∀ p t, Effect.writeJobFile p t ∉ (run argv w).1) ∧
    (∀ out, w.suffixOutput = some out → pyLastToken out = none →
      run argv w =
        ([Effect.printBuilding, Effect.runBuild (build_cmd whide),
          Effect.runSuffixQuery (suffix_cmd args)], Outcome.uncaughtError) ∧
      ∀ p t, Effect.writeJobFile p t ∉ (run argv w).1) ∧
    (∀ out sfx, w.suffixOutput = some out → pyLastToken out = some sfx →
      (run argv w).1 =
        [Effect.printBuilding, Effect.runBuild (build_cmd whide),
         Effect.runSuffixQuery (suffix_cmd args)] ++
        (if w.jobDirExists then [] else [Effect.makeJobDir]) ++
        [Effect.writeJobFile (job_file (basename sfx))
           (job_text (basename sfx) wt args),
         Effect.submit [submit_cmd w.fqdn, job_file (basename sfx)]]) := by
  refine ⟨?_, ?_, ?_⟩
  · intro hso
    simp [run, hp, hb, hso]
  · intro out hso hlt
    simp [run, hp, hb, hso, hlt]
  · intro out sfx hso hlt
    simp only [run, hp, hb, hso, hlt]
    cases hsr : w.submitResult <;> simp [hsr]

/-- C5 witness: with `parse ["prog", "5", "alpha"]` succeeding, build
started, and a failed suffix query, the run ends in the uncaught error
right after the query. -/
theorem suffix_is_last_token_and_failure_fatal_witness :
    run ["prog", "5", "alpha"] ⟨some 0, none, true, "host", some 0⟩ =
      ([Effect.printBuilding, Effect.runBuild (build_cmd false),
        Effect.runSuffixQuery (suffix_cmd ["alpha"])],
        Outcome.uncaughtError) :=
  ((suffix_is_last_token_and_failure_fatal ["prog", "5", "alpha"]
      ⟨some 0, none, true, "host", some 0⟩ false "5" ["alpha"] 0
      (by decide) rfl).1 rfl).1

/-- C7 counterexample: when the build command cannot be started,
`subprocess.call` at line 23 raises an uncaught exception and the pipeline
halts before the suffix query — the trace ends at the build attempt — so
the pipeline does not continue for a build "failure to start". -/
theorem build_start_failure_halts_pipeline :
    run ["prog", "5", "alpha"] ⟨none, some "x.y", true, "host", some 0⟩ =
      ([Effect.printBuilding, Effect.runBuild ["./mkfac.py"]],
        Outcome.uncaughtError) := by
  decide

/-- C7 amended: the exit status of a build that did start is ignored — runs
differing only in that status are identical, and the trace always proceeds
from the build straight to the suffix query; but a build call that raises
(cannot start) halts the pipeline with an uncaught error before the suffix
query. -/
theorem build_exit_status_ignored
    (argv : List String) (so : Option String) (jd : Bool) (fq : String)
    (sr : Option Int) (e1 e2 : Int)
    (whide : Bool) (wt : String) (args : List String)
    (hp : parse argv = ParseResult.ok whide wt args) :
    run argv ⟨some e1, so, jd, fq, sr⟩ = run argv ⟨some e2, so, jd, fq, sr⟩ ∧
    (∃ tail, (run argv ⟨some e1, so, jd, fq, sr⟩).1 =
      Effect.printBuilding :: Effect.runBuild (build_cmd whide) ::
      Effect.runSuffixQuery (suffix_cmd args) :: tail) ∧
    run argv ⟨none, so, jd, fq, sr⟩ =
      ([Effect.printBuilding, Effect.runBuild (build_cmd whide)],
        Outcome.uncaughtError) := by
  refine ⟨rfl, ?_, by simp [run, hp]⟩
  simp only [run, hp]
  cases so with
  | none => exact ⟨[], by simp⟩
  | some out =>
    cases hlt : pyLastToken out with
    | none => exact ⟨[], by simp [hlt]⟩
    | some sfx =>
      refine ⟨(if jd = true then [] else [Effect.makeJobDir]) ++
        [Effect.writeJobFile (job_file (basename sfx))
           (job_text (basename sfx) wt args),
         Effect.submit [submit_cmd fq, job_file (basename sfx)]], ?_⟩
      cases sr with
      | none => simp [hlt, List.append_assoc]
      | some e => simp [hlt, List.append_assoc]

/-- C7 amended witness: two runs differing only in the build's exit status
coincide, and a build that cannot start halts the run at the build step. -/
theorem build_exit_status_ignored_witness :
    run ["p", "5"] ⟨some 0, some "x.y", true, "h", some 0⟩ =
      run ["p", "5"] ⟨some 1, some "x.y", true, "h", some 0⟩ ∧
    run ["p", "5"] ⟨none, some "x.y", true, "h", some 0⟩ =
      ([Effect.printBuilding, Effect.runBuild (build_cmd false)],
        Outcome.uncaughtError) :=
  have h := build_exit_status_ignored ["p", "5"] (some "x.y") true "h"
    (some 0) 0 1 false "5" [] (by decide)
  ⟨h.1, h.2.2⟩

/-- C8: the submission command is a function of the host FQDN alone —
`sbatch` exactly when the FQDN contains `"colorado.edu"`, otherwise `sh` —
it is invoked last, with the job-script path as its sole further argument,
and its exit status is neither reported nor acted upon (runs differing
only in that status coincide and still end in `done`). -/
theorem submission_dispatch
    (argv : List String) (be : Int) (out : String) (jd : Bool) (fq : String)
    (e1 e2 : Int) (whide : Bool) (wt : String) (args : List String)
    (sfx : String)
    (hp : parse argv = ParseResult.ok whide wt args)
    (hs : pyLastToken out = some sfx) :
    (submit_cmd fq = if pyIn "colorado.edu" fq then "sbatch" else "sh") ∧
    (run argv ⟨some be, some out, jd, fq, some e1⟩).1.getLast? =
      some (Effect.submit [submit_cmd fq, job_file (basename sfx)]) ∧
    run argv ⟨some be, some out, jd, fq, some e1⟩ =
      run argv ⟨some be, some out, jd, fq, some e2⟩ ∧
    (run argv ⟨some be, some out, jd, fq, some e1⟩).2 = Outcome.done := by
  refine ⟨rfl, ?_, rfl, by simp [run, hp, hs]⟩
  cases jd <;>
    simp [run, hp, hs, List.getLast?_cons_cons, List.getLast?_singleton]

/-- C8 witness: on a `colorado.edu` host the run submits via `sbatch` with
the job path as sole argument, ignores the submit status, and ends done. -/
theorem submission_dispatch_witness :
    (run ["p", "5"]
        ⟨some 0, some "x.y", true, "login.rc.colorado.edu", some 0⟩).1.getLast? =
      some (Effect.submit [submit_cmd "login.rc.colorado.edu",
        job_file (basename "x.y")]) ∧
    run ["p", "5"] ⟨some 0, some "x.y", true, "login.rc.colorado.edu", some 0⟩ =
      run ["p", "5"] ⟨some 0, some "x.y", true, "login.rc.colorado.edu", some 1⟩ ∧
    (run ["p", "5"]
        ⟨some 0, some "x.y", true, "login.rc.colorado.edu", some 0⟩).2 =
      Outcome.done :=
  have h := submission_dispatch ["p", "5"] 0 "x.y" true "login.rc.colorado.edu"
    0 1 false "5" [] "x.y" (by decide) (by decide)
  ⟨h.2.1, h.2.2.1, h.2.2.2⟩

/-- C9: job-script rendering is pure and deterministic — any two runs
(possibly with different raw argument vectors, flags, hosts or directory
states) that agree on the basename, the walltime and the pass-through
arguments write byte-identical job-script text at the same path. -/
theorem job_rendering_pure
    (argv1 argv2 : List String) (w1 w2 : World)
    (wh1 wh2 : Bool) (wt1 wt2 : String) (a1 a2 : List String)
    (be1 be2 : Int) (o1 o2 s1 s2 : String)
    (hp1 : parse argv1 = ParseResult.ok wh1 wt1 a1)
    (hp2 : parse argv2 = ParseResult.ok wh2 wt2 a2)
    (hb1 : w1.buildResult = some be1) (hb2 : w2.buildResult = some be2)
    (ho1 : w1.suffixOutput = some o1) (ho2 : w2.suffixOutput = some o2)
    (hs1 : pyLastToken o1 = some s1) (hs2 : pyLastToken o2 = some s2)
    (hbn : basename s1 = basename s2) (hwt : wt1 = wt2) (ha : a1 = a2) :
    Effect.writeJobFile (job_file (basename s1))
      (job_text (basename s1) wt1 a1) ∈ (run argv1 w1).1 ∧
    Effect.writeJobFile (job_file (basename s1))
      (job_text (basename s1) wt1 a1) ∈ (run argv2 w2).1 := by
  constructor
  · simp only [run, hp1, hb1, ho1, hs1]
    cases hsr : w1.submitResult <;> simp [hsr]
  · rw [hbn, hwt, ha]
    simp only [run, hp2, hb2, ho2, hs2]
    cases hsr : w2.submitResult <;> simp [hsr]

/-- C9 witness: two runs with different argument vectors, marker flags,
hosts, directory states and suffix-query stdout, but the same basename,
walltime and arguments, write the identical job-script text. -/
theorem job_rendering_pure_witness :
    Effect.writeJobFile (job_file (basename "foo.bar"))
      (job_text (basename "foo.bar") "5" ["alpha"]) ∈
      (run ["p", "5", "alpha"] ⟨some 0, some "net foo.bar", false, "x", some 0⟩).1 ∧
    Effect.writeJobFile (job_file (basename "foo.bar"))
      (job_text (basename "foo.bar") "5" ["alpha"]) ∈
      (run ["whide", "q", "5", "alpha"]
        ⟨some 7, some " foo.bar ", true, "login.rc.colorado.edu", none⟩).1 :=
  job_rendering_pure ["p", "5", "alpha"] ["whide", "q", "5", "alpha"]
    ⟨some 0, some "net foo.bar", false, "x", some 0⟩
    ⟨some 7, some " foo.bar ", true, "login.rc.colorado.edu", none⟩
    false true "5" "5" ["alpha"] ["alpha"] 0 7
    "net foo.bar" " foo.bar " "foo.bar" "foo.bar"
    (by decide) (by decide) rfl rfl rfl rfl (by decide) (by decide)
    rfl rfl rfl

end SubmitSimulation
